import Mathlib

/-!
Verification development for the tower-http-tracing middleware.

The Rust sources are shallowly embedded as executable Lean definitions:

* header values and request ids are byte strings (`Bytes`, lists of `Nat`);
* `http::HeaderMap` is an association list with first-match lookup and
  replacing insertion, which is all the middleware uses of it;
* the Datadog/W3C trace-context codec (`src/datadog.rs`) is embedded at the
  byte level: `HeaderValue::to_str` succeeds exactly on values made of visible
  ASCII bytes and tabs (modeled by `isVisibleAscii`, applied to the whole
  value before anything else), and on such pure-ASCII strings `split('-')`
  and `from_str_radix` coincide with their byte-level counterparts;
* `ResponseFut::poll` (`src/lib.rs`) is a step function from the inner
  future's poll result to the produced poll result together with the list of
  `span.record` calls it performs.
-/

/-- Byte strings: header values and request-id buffers, one `Nat` per byte. -/
abbrev Bytes := List Nat

/-- The model of `http::HeaderMap`: an association list from header name to
value bytes. The middleware only uses single-value lookup and replacing
insertion, so this captures the behaviour it relies on. -/
abbrev HeaderMap := List (String × Bytes)

/-- Model of `http::HeaderMap::get`: the first value stored under `name`. -/
def getHeader (headers : HeaderMap) (name : String) : Option Bytes :=
  (headers.find? fun kv => kv.1 == name).map fun kv => kv.2

/-- Model of `http::HeaderMap::insert`: stores `value` under `name`, replacing
every previously stored value for that name. -/
def insertHeader (headers : HeaderMap) (name : String) (value : Bytes) : HeaderMap :=
  (name, value) :: headers.filter fun kv => !(kv.1 == name)

/-- Value of one hexadecimal digit byte, as in `char::to_digit(16)`:
ASCII `0`-`9`, `a`-`f` and `A`-`F` are digits, everything else is not.
Bytes ≥ 128 (pieces of multi-byte UTF-8 characters) are never digits, matching
the fact that such characters are invalid digits for `from_str_radix`. -/
def hexDigitVal (b : Nat) : Option Nat :=
  if 48 ≤ b ∧ b ≤ 57 then some (b - 48)
  else if 97 ≤ b ∧ b ≤ 102 then some (b - 87)
  else if 65 ≤ b ∧ b ≤ 70 then some (b - 55)
  else none

/-- One accumulation step of radix-16 unsigned parsing. -/
def hexAccum (acc : Option Nat) (b : Nat) : Option Nat :=
  acc.bind fun a => (hexDigitVal b).map fun d => a * 16 + d

/-- Accumulated value of a digit string; `none` if any byte is not a hex digit. -/
def hexVal (digits : Bytes) : Option Nat :=
  digits.foldl hexAccum (some 0)

/-- Model of `uN::from_str_radix(s, 16)` for the `N`-bit unsigned integer type
(`N` = `bits`): an optional leading ASCII `+` (byte 43), then a non-empty run
of hex digits; the parse fails on an empty digit run, on any non-digit byte,
and on positive overflow (value not below `2 ^ bits`). -/
def fromStrRadix16 (bits : Nat) (s : Bytes) : Option Nat :=
  let digits :=
    match s with
    | b :: rest => if b = 43 then rest else b :: rest
    | [] => []
  if digits = [] then none
  else
    match hexVal digits with
    | some v => if v < 2 ^ bits then some v else none
    | none => none

/-- Model of `str::split('-')` at the byte level (hyphen is byte 45): the list
of hyphen-free groups, with empty groups kept, exactly as Rust's `split`. -/
def splitDash : Bytes → List Bytes
  | [] => [[]]
  | b :: rest =>
    if b = 45 then [] :: splitDash rest
    else
      match splitDash rest with
      | [] => [[b]]
      | g :: gs => (b :: g) :: gs

/-- The byte of one lowercase hex digit, as emitted by Rust's `{:x}` formatting. -/
def hexChar (d : Nat) : Nat :=
  if d < 10 then 48 + d else 87 + d

/-- Exactly `w` lowercase hex digit bytes for `n`, most significant first.
For `n < 16 ^ w` this is Rust's zero-padded `{:0wx}` formatting; the source
only formats `u8` with width 2, `u64` with width 16 and `u128` with width 32,
where that bound holds by the integer type. -/
def toHexFixed : Nat → Nat → Bytes
  | 0, _ => []
  | w + 1, n => toHexFixed w (n / 16) ++ [hexChar (n % 16)]

/-- The `tracing_datadog::context::DatadogContext` pair; `default` is the
all-zero sentinel. -/
structure DatadogContext where
  trace_id : Nat
  parent_id : Nat
deriving DecidableEq, Repr

/-- Model of `DatadogContext::default()`. -/
def DatadogContext.default : DatadogContext := ⟨0, 0⟩

/-- The bytes written by `Propagation::inject`'s
`write!(out, "{W3C_VERSION:02x}-{trace_id:032x}-{parent_id:016x}-{TRACE_SAMPLED_FLAG:02x}")`
with `W3C_VERSION = 0` and `TRACE_SAMPLED_FLAG = 1`. -/
def Propagation.w3cFormat (trace_id parent_id : Nat) : Bytes :=
  toHexFixed 2 0 ++ 45 :: (toHexFixed 32 trace_id ++ 45 :: (toHexFixed 16 parent_id ++ 45 :: toHexFixed 2 1))

/-- Model of `Propagation::inject` (src/datadog.rs lines 37-55): a no-op for
the sentinel `trace_id == 0`, otherwise inserts the formatted value under the
`traceparent` header name. -/
def Propagation.inject (headers : HeaderMap) (context : DatadogContext) : HeaderMap :=
  if context.trace_id = 0 then headers
  else insertHeader headers "traceparent" (Propagation.w3cFormat context.trace_id context.parent_id)

/-- The validation chain of `Propagation::extract` applied to the first four
`split('-')` groups (src/datadog.rs lines 66-83): version must parse as `u8`
hex and be 0, the flags group must parse as `u8` hex with the sampled bit set,
then trace id and parent id must parse as `u128` and `u64` hex. -/
def Propagation.extractGroups (version trace_id parent_id trace_flag : Bytes) : DatadogContext :=
  match fromStrRadix16 8 version with
  | none => DatadogContext.default
  | some v =>
    if v ≠ 0 then DatadogContext.default
    else
      match fromStrRadix16 8 trace_flag with
      | none => DatadogContext.default
      | some flag =>
        if flag &&& 1 ≠ 1 then DatadogContext.default
        else
          match fromStrRadix16 128 trace_id, fromStrRadix16 64 parent_id with
          | some t, some p => ⟨t, p⟩
          | some _, none => DatadogContext.default
          | none, some _ => DatadogContext.default
          | none, none => DatadogContext.default

/-- Byte condition of `http::HeaderValue::to_str`: the conversion succeeds
exactly when every byte of the value is visible ASCII (32..126) or a
horizontal tab; any byte below 32 (other than tab), the DEL byte 127 and every
obs-text byte 128..255 make `to_str` fail. `Propagation::extract` applies
this scan to the whole header value (src/datadog.rs line 58) before any
splitting or parsing. -/
def isVisibleAscii (bytes : Bytes) : Bool :=
  bytes.all fun b => (32 ≤ b && b < 127) || b == 9

/-- The split-and-parse body of `Propagation::extract` on the string obtained
from a successful `to_str` (src/datadog.rs lines 63-86): the source draws the
first four items of the `split('-')` iterator, so groups past the fourth are
never parsed, and fewer than four groups yield the default context. -/
def Propagation.extractStr (header : Bytes) : DatadogContext :=
  match splitDash header with
  | version :: trace_id :: parent_id :: trace_flag :: _ =>
    Propagation.extractGroups version trace_id parent_id trace_flag
  | _ => DatadogContext.default

/-- Decode of one present header value (src/datadog.rs lines 58-86): the
whole value must first pass the `HeaderValue::to_str` visible-ASCII scan —
a non-visible byte anywhere in the value, including in groups past the
fourth, yields the default context — and only then is it split and parsed. -/
def Propagation.extractValue (header : Bytes) : DatadogContext :=
  if isVisibleAscii header then Propagation.extractStr header
  else DatadogContext.default

/-- Model of `Propagation::extract` (src/datadog.rs lines 57-87): an absent
`traceparent` header yields the default context, a present one is decoded by
`Propagation.extractValue` (to_str scan, then split and parse). -/
def Propagation.extract (headers : HeaderMap) : DatadogContext :=
  match getHeader headers "traceparent" with
  | none => DatadogContext.default
  | some header => Propagation.extractValue header

/-- Model of `parse_grpc_status` (src/grpc.rs): a fixed lookup on the byte
string, `b'0'` = 48 and `b'9'` = 57. -/
def parse_grpc_status (bytes : Bytes) : Nat :=
  match bytes with
  | [b] =>
    if b = 48 then 0
    else if b = 49 then 1
    else if b = 50 then 2
    else if b = 51 then 3
    else if b = 52 then 4
    else if b = 53 then 5
    else if b = 54 then 6
    else if b = 55 then 7
    else if b = 56 then 8
    else if b = 57 then 9
    else 2
  | [b0, b1] =>
    if b0 = 49 ∧ b1 = 48 then 10
    else if b0 = 49 ∧ b1 = 49 then 11
    else if b0 = 49 ∧ b1 = 50 then 12
    else if b0 = 49 ∧ b1 = 51 then 13
    else if b0 = 49 ∧ b1 = 52 then 14
    else if b0 = 49 ∧ b1 = 53 then 15
    else if b0 = 49 ∧ b1 = 54 then 16
    else 2
  | _ => 2

/-- The `Protocol` enum of src/lib.rs. -/
inductive Protocol where
  | Http
  | Grpc
deriving DecidableEq, Repr

/-- The `RequestId` struct of src/lib.rs: a 64-byte buffer plus a used length. -/
structure RequestId where
  buffer : Bytes
  len : Nat
deriving DecidableEq, Repr

/-- Model of `RequestId::from_bytes` (src/lib.rs lines 111-124): copy
`min(64, bytes.len())` bytes into a zeroed 64-byte buffer and store that
length; excess input bytes are silently dropped. -/
def RequestId.from_bytes (bytes : Bytes) : RequestId :=
  let len := min 64 bytes.length
  { buffer := bytes.take len ++ List.replicate (64 - len) 0, len := len }

/-- Model of `RequestId::as_bytes`: the first `len` bytes of the buffer. -/
def RequestId.as_bytes (r : RequestId) : Bytes :=
  r.buffer.take r.len

/-- Byte validity of `http::HeaderValue::from_bytes`: every byte must be
visible (32 or above, not 127, obs-text allowed) or a horizontal tab. This is
the contract of the external `http` crate, used by `ResponseFut::poll` to
decide whether the request id is attachable as a response header. -/
def isValidHeaderValue (bytes : Bytes) : Bool :=
  bytes.all fun b => (32 ≤ b && b != 127) || b == 9

/-- The values the middleware passes to `span.record`: numeric statuses and
textual error annotations. -/
inductive RecVal where
  | nat (n : Nat)
  | str (s : String)
deriving DecidableEq, Repr

/-- A sequence of `span.record(field, value)` calls, in call order. -/
abbrev SpanRecord := List (String × RecVal)

/-- Poll result of a future: still pending, or ready with a value. -/
inductive Poll (α : Type) where
  | pending
  | ready (value : α)
deriving DecidableEq, Repr

/-- The part of `http::Response` that `ResponseFut::poll` looks at: the status
code (`status().as_u16()`) and the header map. -/
structure Response where
  status : Nat
  headers : HeaderMap
deriving DecidableEq, Repr

/-- Model of one `ResponseFut::poll` step (src/lib.rs lines 431-470), as a
function of the inner future's poll result. Returns the poll result produced
for the caller together with the list of `span.record` calls performed, in
order. `typeNameE` stands for `core::any::type_name::<E>()` and `displayE`
for the error type's `Display` rendering, both opaque to this middleware. -/
def respFutPoll {E : Type} (protocol : Protocol) (request_id : RequestId)
    (typeNameE : String) (displayE : E → String)
    (inner : Poll (Except E Response)) : Poll (Except E Response) × SpanRecord :=
  match inner with
  | Poll.pending => (Poll.pending, [])
  | Poll.ready (Except.ok resp) =>
    let resp :=
      if isValidHeaderValue request_id.as_bytes then
        { resp with headers := insertHeader resp.headers "x-request-id" request_id.as_bytes }
      else resp
    let status : Nat :=
      match protocol with
      | Protocol.Http => resp.status
      | Protocol.Grpc =>
        match getHeader resp.headers "grpc-status" with
        | some status => parse_grpc_status status
        | none => 2
    (Poll.ready (Except.ok resp), [("http.response.status_code", RecVal.nat status)])
  | Poll.ready (Except.error error) =>
    let status : Nat :=
      match protocol with
      | Protocol.Http => 500
      | Protocol.Grpc => 13
    (Poll.ready (Except.error error),
      [("http.response.status_code", RecVal.nat status),
       ("error.type", RecVal.str typeNameE),
       ("error.message", RecVal.str (displayE error))])

/-- A run of the response future: poll it once per element of `inners` (the
inner future's successive poll results), accumulating the `span.record` calls,
and stop at the first `ready` outcome. A run whose list is exhausted without a
`ready` element models a future that is dropped (cancelled) before resolution. -/
def runPolls {E : Type} (protocol : Protocol) (request_id : RequestId)
    (typeNameE : String) (displayE : E → String) :
    List (Poll (Except E Response)) → SpanRecord
  | [] => []
  | inner :: rest =>
    match respFutPoll protocol request_id typeNameE displayE inner with
    | (Poll.pending, recs) => recs ++ runPolls protocol request_id typeNameE displayE rest
    | (Poll.ready _, recs) => recs

/-- The span fields declared by the body of the `make_request_spanner` macro
(src/lib.rs lines 219-241), in declaration order, before any caller-supplied
extension fields. Note the macro body declares `error.message` but no
`error.type`, although its doc comment lists `error.type`. -/
def make_request_spanner_fields : List String :=
  ["http.request.method", "url.path", "url.query", "url.scheme",
   "http.request_id", "user_agent.original", "http.headers",
   "network.protocol.name", "network.protocol.version", "client.address",
   "http.response.status_code", "error.message"]

/-- Model of `HeaderMapExtractor::keys` (src/opentelemetry.rs lines 18-21):
the source body is `Vec::new()`, ignoring the wrapped header map. -/
def HeaderMapExtractor.keys (_ : HeaderMap) : List String :=
  []

lemma getHeader_insertHeader_self (headers : HeaderMap) (name : String) (value : Bytes) :
    getHeader (insertHeader headers name value) name = some value := by
  simp [getHeader, insertHeader, List.find?]

lemma find?_filter_key_ne (headers : HeaderMap) (n m : String) (h : n ≠ m) :
    (headers.filter fun kv => !(kv.1 == m)).find? (fun kv => kv.1 == n) =
      headers.find? fun kv => kv.1 == n := by
  induction headers with
  | nil => rfl
  | cons head tail ih =>
    by_cases hk : head.1 = m
    · have h1 : (head.1 == m) = true := beq_iff_eq.mpr hk
      have h2 : (head.1 == n) = false := by
        refine beq_eq_false_iff_ne.mpr ?_
        rw [hk]
        exact fun he => h he.symm
      simp [List.filter_cons, List.find?_cons, h1, h2, ih]
    · have h1 : (head.1 == m) = false := beq_eq_false_iff_ne.mpr hk
      by_cases hk1 : head.1 = n
      · have h2 : (head.1 == n) = true := beq_iff_eq.mpr hk1
        simp [List.filter_cons, List.find?_cons, h1, h2]
      · have h2 : (head.1 == n) = false := beq_eq_false_iff_ne.mpr hk1
        simp [List.filter_cons, List.find?_cons, h1, h2, ih]

lemma getHeader_insertHeader_ne (headers : HeaderMap) (n m : String) (value : Bytes)
    (h : n ≠ m) : getHeader (insertHeader headers m value) n = getHeader headers n := by
  have hm : (m == n) = false := beq_eq_false_iff_ne.mpr fun he => h he.symm
  simp only [getHeader, insertHeader, List.find?_cons, hm]
  rw [find?_filter_key_ne headers n m h]

/-- C9: encoding a sentinel context (`trace_id == 0`) writes nothing: the
header map is returned entirely unchanged. -/
theorem inject_sentinel_noop (headers : HeaderMap) (context : DatadogContext)
    (h : context.trace_id = 0) : Propagation.inject headers context = headers := by
  simp [Propagation.inject, h]

theorem inject_sentinel_noop_witness :
    Propagation.inject [("a", [1])] ⟨0, 7⟩ = [("a", [1])] :=
  inject_sentinel_noop [("a", [1])] ⟨0, 7⟩ rfl

/-- C10: the key-listing operation of the Codec B extractor returns the empty
sequence for every header map, however many headers it holds. -/
theorem extractor_keys_empty (headers : HeaderMap) :
    HeaderMapExtractor.keys headers = [] :=
  rfl

/-- C2 (code bug): `error.type` is not among the span fields declared by the
body of `make_request_spanner`, although the error branch of
`ResponseFut::poll` records a value under `error.type` (and the macro's own
doc comment lists `error.type` as a declared field). -/
theorem error_type_not_declared :
    "error.type" ∉ make_request_spanner_fields ∧
    "error.type" ∈ (respFutPoll (E := Unit) Protocol.Http (RequestId.from_bytes [])
        "core::fmt::Error" (fun _ => "error") (Poll.ready (Except.error ()))).2.map Prod.fst := by
  constructor
  · decide
  · decide

/-- C5: a response future whose inner computation is never polled to a ready
result performs no `span.record` call at all; in particular none of
`http.response.status_code`, `error.type`, `error.message` is ever recorded,
these being written only in the two terminal-resolution branches. -/
theorem cancelled_future_records_nothing {E : Type} (protocol : Protocol)
    (request_id : RequestId) (typeNameE : String) (displayE : E → String)
    (inners : List (Poll (Except E Response)))
    (h : ∀ x ∈ inners, x = Poll.pending) :
    runPolls protocol request_id typeNameE displayE inners = [] := by
  induction inners with
  | nil => rfl
  | cons head tail ih =>
    have hh : head = Poll.pending := h head (List.mem_cons_self head tail)
    subst hh
    simp only [runPolls, respFutPoll, List.nil_append]
    exact ih fun x hx => h x (List.mem_cons_of_mem _ hx)

theorem cancelled_future_records_nothing_witness :
    runPolls (E := Unit) Protocol.Http (RequestId.from_bytes []) "core::fmt::Error"
      (fun _ => "error") [Poll.pending, Poll.pending] = [] := by
  refine cancelled_future_records_nothing _ _ _ _ _ ?_
  intro x hx
  simp only [List.mem_cons, List.not_mem_nil, or_false] at hx
  rcases hx with h | h <;> exact h

/-- C6: when the inner computation resolves with an error, the poll step
records `http.response.status_code` as 500 for `Http` and 13 for `Grpc`,
records the error type's identifier under `error.type` and its display text
under `error.message`, and hands the error value itself back unchanged. -/
theorem error_resolution_records_and_propagates {E : Type} (request_id : RequestId)
    (typeNameE : String) (displayE : E → String) (e : E) :
    (∀ protocol, (respFutPoll protocol request_id typeNameE displayE
        (Poll.ready (Except.error e))).1 = Poll.ready (Except.error e)) ∧
    (respFutPoll Protocol.Http request_id typeNameE displayE
        (Poll.ready (Except.error e))).2 =
      [("http.response.status_code", RecVal.nat 500),
       ("error.type", RecVal.str typeNameE),
       ("error.message", RecVal.str (displayE e))] ∧
    (respFutPoll Protocol.Grpc request_id typeNameE displayE
        (Poll.ready (Except.error e))).2 =
      [("http.response.status_code", RecVal.nat 13),
       ("error.type", RecVal.str typeNameE),
       ("error.message", RecVal.str (displayE e))] := by
  refine ⟨fun protocol => ?_, rfl, rfl⟩
  cases protocol <;> rfl

lemma RequestId.as_bytes_from_bytes (bytes : Bytes) :
    (RequestId.from_bytes bytes).as_bytes = bytes.take (min 64 bytes.length) := by
  unfold RequestId.from_bytes RequestId.as_bytes
  have hlen : (bytes.take (min 64 bytes.length)).length = min 64 bytes.length := by
    simp [List.length_take]
  exact List.take_left' hlen

/-- The seventeen byte strings the `parse_grpc_status` lookup recognizes:
ASCII `"0"`..`"9"` and `"10"`..`"16"`. -/
def grpcKnownStatusInputs : List Bytes :=
  [[48], [49], [50], [51], [52], [53], [54], [55], [56], [57],
   [49, 48], [49, 49], [49, 50], [49, 51], [49, 52], [49, 53], [49, 54]]

/-- C7: the grpc-status lookup maps the single ASCII digits `"0"`..`"9"` to
0..9, the two-byte strings `"10"`..`"16"` to 10..16, every other byte string
to 2; and when the protocol is `Grpc` and the successful response carries no
`grpc-status` header, the recorded status is 2. -/
theorem grpc_status_derivation :
    (∀ d : Nat, d ≤ 9 → parse_grpc_status [48 + d] = d) ∧
    (∀ d : Nat, d ≤ 6 → parse_grpc_status [49, 48 + d] = 10 + d) ∧
    (∀ bytes : Bytes, bytes ∉ grpcKnownStatusInputs → parse_grpc_status bytes = 2) ∧
    (∀ (E : Type) (request_id : RequestId) (typeNameE : String) (displayE : E → String)
        (resp : Response), getHeader resp.headers "grpc-status" = none →
      (respFutPoll Protocol.Grpc request_id typeNameE displayE
          (Poll.ready (Except.ok resp))).2 = [("http.response.status_code", RecVal.nat 2)]) := by
  refine ⟨?_, ?_, ?_, ?_⟩
  · intro d hd
    interval_cases d <;> rfl
  · intro d hd
    interval_cases d <;> rfl
  · intro bytes hmem
    rcases bytes with _ | ⟨b0, _ | ⟨b1, _ | ⟨b2, rest⟩⟩⟩
    · rfl
    · have h0 : b0 ≠ 48 := fun hb => hmem (by rw [hb]; decide)
      have h1 : b0 ≠ 49 := fun hb => hmem (by rw [hb]; decide)
      have h2 : b0 ≠ 50 := fun hb => hmem (by rw [hb]; decide)
      have h3 : b0 ≠ 51 := fun hb => hmem (by rw [hb]; decide)
      have h4 : b0 ≠ 52 := fun hb => hmem (by rw [hb]; decide)
      have h5 : b0 ≠ 53 := fun hb => hmem (by rw [hb]; decide)
      have h6 : b0 ≠ 54 := fun hb => hmem (by rw [hb]; decide)
      have h7 : b0 ≠ 55 := fun hb => hmem (by rw [hb]; decide)
      have h8 : b0 ≠ 56 := fun hb => hmem (by rw [hb]; decide)
      have h9 : b0 ≠ 57 := fun hb => hmem (by rw [hb]; decide)
      simp only [parse_grpc_status, if_neg h0, if_neg h1, if_neg h2, if_neg h3, if_neg h4,
        if_neg h5, if_neg h6, if_neg h7, if_neg h8, if_neg h9]
    · have h10 : ¬(b0 = 49 ∧ b1 = 48) := fun ⟨ha, hb⟩ => hmem (by rw [ha, hb]; decide)
      have h11 : ¬(b0 = 49 ∧ b1 = 49) := fun ⟨ha, hb⟩ => hmem (by rw [ha, hb]; decide)
      have h12 : ¬(b0 = 49 ∧ b1 = 50) := fun ⟨ha, hb⟩ => hmem (by rw [ha, hb]; decide)
      have h13 : ¬(b0 = 49 ∧ b1 = 51) := fun ⟨ha, hb⟩ => hmem (by rw [ha, hb]; decide)
      have h14 : ¬(b0 = 49 ∧ b1 = 52) := fun ⟨ha, hb⟩ => hmem (by rw [ha, hb]; decide)
      have h15 : ¬(b0 = 49 ∧ b1 = 53) := fun ⟨ha, hb⟩ => hmem (by rw [ha, hb]; decide)
      have h16 : ¬(b0 = 49 ∧ b1 = 54) := fun ⟨ha, hb⟩ => hmem (by rw [ha, hb]; decide)
      simp only [parse_grpc_status, if_neg h10, if_neg h11, if_neg h12, if_neg h13,
        if_neg h14, if_neg h15, if_neg h16]
    · rfl
  · intro E request_id typeNameE displayE resp hnone
    by_cases hv : isValidHeaderValue request_id.as_bytes = true
    · simp only [respFutPoll, hv, if_true]
      rw [getHeader_insertHeader_ne resp.headers "grpc-status" "x-request-id"
        request_id.as_bytes (by decide), hnone]
    · simp only [respFutPoll, hv, if_false, Bool.false_eq_true]
      rw [hnone]

theorem grpc_status_derivation_witness :
    parse_grpc_status [48 + 9] = 9 ∧ parse_grpc_status [49, 48 + 6] = 10 + 6 ∧
    parse_grpc_status [57, 57] = 2 ∧
    (respFutPoll Protocol.Grpc (RequestId.from_bytes [97]) "core::fmt::Error"
        (fun _ : Unit => "error") (Poll.ready (Except.ok ⟨200, []⟩))).2 =
      [("http.response.status_code", RecVal.nat 2)] :=
  ⟨grpc_status_derivation.1 9 (by decide),
   grpc_status_derivation.2.1 6 (by decide),
   grpc_status_derivation.2.2.1 [57, 57] (by decide),
   grpc_status_derivation.2.2.2 Unit (RequestId.from_bytes [97]) "core::fmt::Error"
     (fun _ => "error") ⟨200, []⟩ rfl⟩

/-- C8: the `RequestId` built from an inbound identifier header keeps exactly
the first `min(64, length)` bytes of the input, and on successful resolution
the outgoing response carries that same truncated prefix under the identifier
header whenever its bytes are valid header-value bytes. -/
theorem request_id_truncation_roundtrip {E : Type} (bytes : Bytes) (protocol : Protocol)
    (typeNameE : String) (displayE : E → String) (resp : Response)
    (hv : isValidHeaderValue (RequestId.from_bytes bytes).as_bytes = true) :
    (RequestId.from_bytes bytes).as_bytes = bytes.take (min 64 bytes.length) ∧
    ∃ out : Response,
      (respFutPoll protocol (RequestId.from_bytes bytes) typeNameE displayE
          (Poll.ready (Except.ok resp))).1 = Poll.ready (Except.ok out) ∧
      getHeader out.headers "x-request-id" = some (bytes.take (min 64 bytes.length)) := by
  refine ⟨RequestId.as_bytes_from_bytes bytes, ?_⟩
  have hout : (respFutPoll protocol (RequestId.from_bytes bytes) typeNameE displayE
        (Poll.ready (Except.ok resp))).1 =
      Poll.ready (Except.ok (Response.mk resp.status
        (insertHeader resp.headers "x-request-id" (RequestId.from_bytes bytes).as_bytes))) := by
    simp only [respFutPoll, hv, if_true]
  refine ⟨_, hout, ?_⟩
  rw [getHeader_insertHeader_self, RequestId.as_bytes_from_bytes]

theorem request_id_truncation_roundtrip_witness :
    (RequestId.from_bytes [97, 98, 99]).as_bytes = [97, 98, 99].take (min 64 3) ∧
    ∃ out : Response,
      (respFutPoll Protocol.Http (RequestId.from_bytes [97, 98, 99]) "core::fmt::Error"
          (fun _ : Unit => "error") (Poll.ready (Except.ok ⟨200, []⟩))).1 =
        Poll.ready (Except.ok out) ∧
      getHeader out.headers "x-request-id" = some ([97, 98, 99].take (min 64 3)) :=
  request_id_truncation_roundtrip [97, 98, 99] Protocol.Http "core::fmt::Error"
    (fun _ => "error") ⟨200, []⟩ (by decide)

lemma hexChar_ge (d : Nat) : 48 ≤ hexChar d := by
  unfold hexChar
  split <;> omega

lemma toHexFixed_length (w n : Nat) : (toHexFixed w n).length = w := by
  induction w generalizing n with
  | zero => rfl
  | succ w ih => simp [toHexFixed, ih]

lemma toHexFixed_mem_ge {w n b : Nat} (hb : b ∈ toHexFixed w n) : 48 ≤ b := by
  induction w generalizing n with
  | zero => simp [toHexFixed] at hb
  | succ w ih =>
    simp only [toHexFixed, List.mem_append, List.mem_singleton] at hb
    rcases hb with hm | hm
    · exact ih hm
    · exact hm ▸ hexChar_ge (n % 16)

lemma hexChar_le {d : Nat} (hd : d < 16) : hexChar d ≤ 102 := by
  unfold hexChar
  split <;> omega

lemma toHexFixed_mem_le {w n b : Nat} (hb : b ∈ toHexFixed w n) : b ≤ 102 := by
  induction w generalizing n with
  | zero => simp [toHexFixed] at hb
  | succ w ih =>
    simp only [toHexFixed, List.mem_append, List.mem_singleton] at hb
    rcases hb with hm | hm
    · exact ih hm
    · exact hm ▸ hexChar_le (Nat.mod_lt n (by omega))

lemma hexDigitVal_hexChar {d : Nat} (hd : d < 16) : hexDigitVal (hexChar d) = some d := by
  unfold hexDigitVal hexChar
  by_cases h : d < 10
  · rw [if_pos h, if_pos (by omega : 48 ≤ 48 + d ∧ 48 + d ≤ 57)]
    congr 1
    omega
  · rw [if_neg h, if_neg (by omega : ¬(48 ≤ 87 + d ∧ 87 + d ≤ 57)),
      if_pos (by omega : 97 ≤ 87 + d ∧ 87 + d ≤ 102)]
    congr 1
    omega

lemma hexVal_toHexFixed {w n : Nat} (h : n < 16 ^ w) : hexVal (toHexFixed w n) = some n := by
  induction w generalizing n with
  | zero =>
    have hn : n = 0 := by
      have h1 : (16 : Nat) ^ 0 = 1 := by norm_num
      omega
    simp [hn, hexVal, toHexFixed]
  | succ w ih =>
    have hdiv : n / 16 < 16 ^ w := by
      refine Nat.div_lt_of_lt_mul ?_
      have hs : (16 : Nat) ^ (w + 1) = 16 * 16 ^ w := by ring
      omega
    have hrec := ih hdiv
    unfold hexVal at hrec ⊢
    rw [toHexFixed, List.foldl_append, hrec]
    simp only [List.foldl_cons, List.foldl_nil]
    unfold hexAccum
    rw [hexDigitVal_hexChar (Nat.mod_lt n (by omega))]
    show some (n / 16 * 16 + n % 16) = some n
    congr 1
    omega

lemma fromStrRadix16_toHexFixed {w n : Nat} (hw : 0 < w) (h : n < 16 ^ w) :
    fromStrRadix16 (4 * w) (toHexFixed w n) = some n := by
  have hlt : n < 2 ^ (4 * w) := by
    have h16 : (16 : Nat) ^ w = 2 ^ (4 * w) := by
      rw [Nat.pow_mul]
    omega
  rcases htf : toHexFixed w n with _ | ⟨b, rest⟩
  · exfalso
    have hl := toHexFixed_length w n
    rw [htf] at hl
    simp at hl
    omega
  · have hb : b ≠ 43 := by
      have hmem : b ∈ toHexFixed w n := by
        rw [htf]
        exact List.mem_cons_self b rest
      have := toHexFixed_mem_ge hmem
      omega
    have hval : hexVal (b :: rest) = some n := by
      rw [← htf]
      exact hexVal_toHexFixed h
    simp only [fromStrRadix16, if_neg hb]
    rw [if_neg (by simp : ¬(b :: rest = ([] : Bytes))), hval]
    simp [hlt]

lemma splitDash_cons_dash (l : Bytes) : splitDash (45 :: l) = [] :: splitDash l := by
  conv_lhs => rw [splitDash]
  rw [if_pos rfl]

lemma splitDash_cons_ne {b : Nat} (l : Bytes) (hb : b ≠ 45) :
    splitDash (b :: l) =
      match splitDash l with
      | [] => [[b]]
      | g :: gs => (b :: g) :: gs := by
  conv_lhs => rw [splitDash]
  rw [if_neg hb]

lemma splitDash_no_dash {l : Bytes} (h : 45 ∉ l) : splitDash l = [l] := by
  induction l with
  | nil => rfl
  | cons b rest ih =>
    have hb : b ≠ 45 := fun hc => h (hc ▸ List.mem_cons_self b rest)
    have hr : 45 ∉ rest := fun hc => h (List.mem_cons_of_mem b hc)
    rw [splitDash_cons_ne rest hb, ih hr]

lemma splitDash_append {a : Bytes} (r : Bytes) (h : 45 ∉ a) :
    splitDash (a ++ 45 :: r) = a :: splitDash r := by
  induction a with
  | nil =>
    simp only [List.nil_append]
    exact splitDash_cons_dash r
  | cons b rest ih =>
    have hb : b ≠ 45 := fun hc => h (hc ▸ List.mem_cons_self b rest)
    have hr : 45 ∉ rest := fun hc => h (List.mem_cons_of_mem b hc)
    simp only [List.cons_append]
    rw [splitDash_cons_ne (rest ++ 45 :: r) hb, ih hr]

lemma extractStr_eq_groups {header : Bytes} {vg tg pg fg : Bytes} {rest : List Bytes}
    (hsplit : splitDash header = vg :: tg :: pg :: fg :: rest) :
    Propagation.extractStr header = Propagation.extractGroups vg tg pg fg := by
  unfold Propagation.extractStr
  rw [hsplit]

lemma extractValue_of_visible {header : Bytes} (h : isVisibleAscii header = true) :
    Propagation.extractValue header = Propagation.extractStr header := by
  unfold Propagation.extractValue
  rw [if_pos h]

lemma extractValue_of_not_visible {header : Bytes} (h : ¬isVisibleAscii header = true) :
    Propagation.extractValue header = DatadogContext.default := by
  unfold Propagation.extractValue
  rw [if_neg h]

lemma visible_hex_byte {b : Nat} (h1 : 48 ≤ b) (h2 : b ≤ 102) :
    ((32 ≤ b && b < 127) || b == 9) = true := by
  simp only [Bool.or_eq_true, Bool.and_eq_true, decide_eq_true_eq]
  left
  exact ⟨by omega, by omega⟩

lemma isVisibleAscii_w3cFormat (trace_id parent_id : Nat) :
    isVisibleAscii (Propagation.w3cFormat trace_id parent_id) = true := by
  unfold isVisibleAscii Propagation.w3cFormat
  simp only [List.all_append, List.all_cons, Bool.and_eq_true, List.all_eq_true]
  refine ⟨?_, by decide, ?_, by decide, ?_, by decide, ?_⟩ <;>
    exact fun b hb => visible_hex_byte (toHexFixed_mem_ge hb) (toHexFixed_mem_le hb)

lemma extractGroups_eq_of_parses {vg tg pg fg : Bytes} {t p flag : Nat}
    (hv : fromStrRadix16 8 vg = some 0) (hf : fromStrRadix16 8 fg = some flag)
    (hf1 : flag &&& 1 = 1) (ht : fromStrRadix16 128 tg = some t)
    (hp : fromStrRadix16 64 pg = some p) :
    Propagation.extractGroups vg tg pg fg = ⟨t, p⟩ := by
  unfold Propagation.extractGroups
  rw [hv, hf, ht, hp]
  simp [hf1]

/-- C4: encoding a context with `trace_id ≠ 0` into an empty header map and
decoding that map back yields exactly the same pair. The bounds record the
`u128` and `u64` integer types of the two fields. -/
theorem inject_extract_roundtrip (trace_id parent_id : Nat) (h0 : trace_id ≠ 0)
    (ht : trace_id < 2 ^ 128) (hp : parent_id < 2 ^ 64) :
    Propagation.extract (Propagation.inject [] ⟨trace_id, parent_id⟩) =
      ⟨trace_id, parent_id⟩ := by
  have h16t : trace_id < 16 ^ 32 := by
    have : (16 : Nat) ^ 32 = 2 ^ 128 := by norm_num
    omega
  have h16p : parent_id < 16 ^ 16 := by
    have : (16 : Nat) ^ 16 = 2 ^ 64 := by norm_num
    omega
  have hmem32 : (45 : Nat) ∉ toHexFixed 32 trace_id := fun hm => by
    have := toHexFixed_mem_ge hm
    omega
  have hmem16 : (45 : Nat) ∉ toHexFixed 16 parent_id := fun hm => by
    have := toHexFixed_mem_ge hm
    omega
  have hmem2 : (45 : Nat) ∉ toHexFixed 2 0 := fun hm => by
    have := toHexFixed_mem_ge hm
    omega
  have hmem2' : (45 : Nat) ∉ toHexFixed 2 1 := fun hm => by
    have := toHexFixed_mem_ge hm
    omega
  have hinj : Propagation.inject [] ⟨trace_id, parent_id⟩ =
      insertHeader [] "traceparent" (Propagation.w3cFormat trace_id parent_id) := by
    unfold Propagation.inject
    rw [if_neg h0]
  rw [hinj]
  have hget : getHeader (insertHeader [] "traceparent" (Propagation.w3cFormat trace_id parent_id))
      "traceparent" = some (Propagation.w3cFormat trace_id parent_id) :=
    getHeader_insertHeader_self [] "traceparent" (Propagation.w3cFormat trace_id parent_id)
  unfold Propagation.extract
  rw [hget]
  show Propagation.extractValue (Propagation.w3cFormat trace_id parent_id) =
    (⟨trace_id, parent_id⟩ : DatadogContext)
  rw [extractValue_of_visible (isVisibleAscii_w3cFormat trace_id parent_id)]
  have hsplit : splitDash (Propagation.w3cFormat trace_id parent_id) =
      [toHexFixed 2 0, toHexFixed 32 trace_id, toHexFixed 16 parent_id, toHexFixed 2 1] := by
    unfold Propagation.w3cFormat
    rw [splitDash_append _ hmem2, splitDash_append _ hmem32, splitDash_append _ hmem16,
      splitDash_no_dash hmem2']
  rw [extractStr_eq_groups hsplit]
  have hv : fromStrRadix16 8 (toHexFixed 2 0) = some 0 :=
    fromStrRadix16_toHexFixed (w := 2) (by omega) (by norm_num)
  have hf : fromStrRadix16 8 (toHexFixed 2 1) = some 1 :=
    fromStrRadix16_toHexFixed (w := 2) (by omega) (by norm_num)
  have htg : fromStrRadix16 128 (toHexFixed 32 trace_id) = some trace_id :=
    fromStrRadix16_toHexFixed (w := 32) (by omega) h16t
  have hpg : fromStrRadix16 64 (toHexFixed 16 parent_id) = some parent_id :=
    fromStrRadix16_toHexFixed (w := 16) (by omega) h16p
  exact extractGroups_eq_of_parses hv hf (by decide) htg hpg

theorem inject_extract_roundtrip_witness :
    Propagation.extract (Propagation.inject [] ⟨0xfff00011110002222, 0x333000444000555⟩) =
      ⟨0xfff00011110002222, 0x333000444000555⟩ :=
  inject_extract_roundtrip 0xfff00011110002222 0x333000444000555 (by norm_num)
    (by norm_num) (by norm_num)

lemma extractStr_default_of_short {header : Bytes}
    (h : (splitDash header).length < 4) :
    Propagation.extractStr header = DatadogContext.default := by
  unfold Propagation.extractStr
  rcases hsp : splitDash header with _ | ⟨a, _ | ⟨b, _ | ⟨c, _ | ⟨d, rest⟩⟩⟩⟩
  · rfl
  · rfl
  · rfl
  · rfl
  · exfalso
    rw [hsp] at h
    simp at h
    omega

lemma extractValue_default_of_short {header : Bytes}
    (h : (splitDash header).length < 4) :
    Propagation.extractValue header = DatadogContext.default := by
  by_cases hvis : isVisibleAscii header = true
  · rw [extractValue_of_visible hvis]
    exact extractStr_default_of_short h
  · exact extractValue_of_not_visible hvis

lemma extractGroups_default_version {vg tg pg fg : Bytes}
    (hv : ∀ v, fromStrRadix16 8 vg = some v → v ≠ 0) :
    Propagation.extractGroups vg tg pg fg = DatadogContext.default := by
  unfold Propagation.extractGroups
  rcases hvv : fromStrRadix16 8 vg with _ | v
  · rfl
  · simp [hv v hvv]

lemma extractGroups_default_flags {vg tg pg fg : Bytes}
    (hv : fromStrRadix16 8 vg = some 0)
    (hf : ∀ flag, fromStrRadix16 8 fg = some flag → flag &&& 1 ≠ 1) :
    Propagation.extractGroups vg tg pg fg = DatadogContext.default := by
  unfold Propagation.extractGroups
  rw [hv]
  rcases hff : fromStrRadix16 8 fg with _ | flag
  · simp
  · have hbit := hf flag hff
    rw [Nat.and_one_is_mod] at hbit
    simp [hbit]

lemma extractGroups_default_ids {vg tg pg fg : Bytes}
    (hids : fromStrRadix16 128 tg = none ∨ fromStrRadix16 64 pg = none) :
    Propagation.extractGroups vg tg pg fg = DatadogContext.default := by
  unfold Propagation.extractGroups
  rcases hvv : fromStrRadix16 8 vg with _ | v
  · rfl
  · by_cases hv0 : v = 0
    · subst hv0
      simp only [ne_eq, not_true_eq_false, if_false, ite_false]
      rcases hff : fromStrRadix16 8 fg with _ | flag
      · simp
      · rcases htg : fromStrRadix16 128 tg with _ | t <;>
          rcases hpg : fromStrRadix16 64 pg with _ | p <;>
          simp_all
    · simp [hv0]

/-- The bytes of `"00-ab-0001-01-zz"`: five hyphen-separated groups, a 2-digit
trace-id group and a 4-digit parent-id group. -/
def extraGroupsHeader : Bytes :=
  [48, 48, 45, 97, 98, 45, 48, 48, 48, 49, 45, 48, 49, 45, 122, 122]

/-- C1 counterexample: splitting `"00-ab-0001-01-zz"` on the hyphen gives five
groups, the trace-id group has 2 hex digits rather than 32 and the parent-id
group 4 rather than 16, yet the decoder returns the parsed pair (0xab, 1)
instead of the sentinel: the fifth group is ignored and no width is enforced. -/
theorem extract_ignores_extra_groups_cex :
    (splitDash extraGroupsHeader).length = 5 ∧
    Propagation.extractValue extraGroupsHeader = ⟨171, 1⟩ ∧
    (⟨171, 1⟩ : DatadogContext) ≠ DatadogContext.default := by
  refine ⟨by decide, by decide, by decide⟩

lemma extractValue_default_of_groups_default {header : Bytes} {vg tg pg fg : Bytes}
    {rest : List Bytes} (hsp : splitDash header = vg :: tg :: pg :: fg :: rest)
    (hgrp : Propagation.extractGroups vg tg pg fg = DatadogContext.default) :
    Propagation.extractValue header = DatadogContext.default := by
  by_cases hvis : isVisibleAscii header = true
  · rw [extractValue_of_visible hvis, extractStr_eq_groups hsp]
    exact hgrp
  · exact extractValue_of_not_visible hvis

/-- C1 (amended): the decoder first applies the `to_str` visible-ASCII scan
to the whole header value — any byte outside visible ASCII or tab, anywhere
in the value including in groups past the fourth, rejects to the sentinel.
A value passing the scan is split on the hyphen and only its first four
groups are read (extra groups carry no information beyond their bytes having
passed the scan). The sentinel is returned when there are fewer than four
groups, when the version group does not parse as `u8` hex to 0, when the
flags group does not parse as `u8` hex with the sampled bit set, or when the
trace-id or parent-id group fails to parse as `u128` or `u64` hex (any
parseable digit count is accepted, not exactly 32 and 16); in every other
case the parsed pair is returned. -/
theorem extract_characterization :
    (∀ header, ¬isVisibleAscii header = true →
      Propagation.extractValue header = DatadogContext.default) ∧
    (∀ header vg tg pg fg rest t p flag,
      isVisibleAscii header = true →
      splitDash header = vg :: tg :: pg :: fg :: rest →
      fromStrRadix16 8 vg = some 0 →
      fromStrRadix16 8 fg = some flag → flag &&& 1 = 1 →
      fromStrRadix16 128 tg = some t →
      fromStrRadix16 64 pg = some p →
      Propagation.extractValue header = ⟨t, p⟩) ∧
    (∀ header, (splitDash header).length < 4 →
      Propagation.extractValue header = DatadogContext.default) ∧
    (∀ header vg tg pg fg rest,
      splitDash header = vg :: tg :: pg :: fg :: rest →
      (∀ v, fromStrRadix16 8 vg = some v → v ≠ 0) →
      Propagation.extractValue header = DatadogContext.default) ∧
    (∀ header vg tg pg fg rest,
      splitDash header = vg :: tg :: pg :: fg :: rest →
      fromStrRadix16 8 vg = some 0 →
      (∀ flag, fromStrRadix16 8 fg = some flag → flag &&& 1 ≠ 1) →
      Propagation.extractValue header = DatadogContext.default) ∧
    (∀ header vg tg pg fg rest,
      splitDash header = vg :: tg :: pg :: fg :: rest →
      (fromStrRadix16 128 tg = none ∨ fromStrRadix16 64 pg = none) →
      Propagation.extractValue header = DatadogContext.default) := by
  refine ⟨?_, ?_, ?_, ?_, ?_, ?_⟩
  · intro header hvis
    exact extractValue_of_not_visible hvis
  · intro header vg tg pg fg rest t p flag hvis hsp hv hf hbit ht hp
    rw [extractValue_of_visible hvis, extractStr_eq_groups hsp]
    exact extractGroups_eq_of_parses hv hf hbit ht hp
  · intro header h
    exact extractValue_default_of_short h
  · intro header vg tg pg fg rest hsp hv
    exact extractValue_default_of_groups_default hsp (extractGroups_default_version hv)
  · intro header vg tg pg fg rest hsp hv hf
    exact extractValue_default_of_groups_default hsp (extractGroups_default_flags hv hf)
  · intro header vg tg pg fg rest hsp hids
    exact extractValue_default_of_groups_default hsp (extractGroups_default_ids hids)

theorem extract_characterization_witness :
    Propagation.extractValue [48, 48, 45, 49, 45, 50, 45, 48, 49, 45, 195] =
      DatadogContext.default ∧
    Propagation.extractValue [48, 48, 45, 49, 45, 50, 45, 48, 49] = ⟨1, 2⟩ ∧
    Propagation.extractValue [48] = DatadogContext.default ∧
    Propagation.extractValue [48, 49, 45, 49, 45, 50, 45, 48, 49] = DatadogContext.default ∧
    Propagation.extractValue [48, 48, 45, 49, 45, 50, 45, 48, 48] = DatadogContext.default ∧
    Propagation.extractValue [48, 48, 45, 122, 45, 50, 45, 48, 49] = DatadogContext.default := by
  refine ⟨?_, ?_, ?_, ?_, ?_, ?_⟩
  · exact extract_characterization.1 [48, 48, 45, 49, 45, 50, 45, 48, 49, 45, 195] (by decide)
  · exact extract_characterization.2.1 [48, 48, 45, 49, 45, 50, 45, 48, 49]
      [48, 48] [49] [50] [48, 49] [] 1 2 1 (by decide) (by decide) (by decide) (by decide)
      (by decide) (by decide) (by decide)
  · exact extract_characterization.2.2.1 [48] (by decide)
  · refine extract_characterization.2.2.2.1 _ [48, 49] [49] [50] [48, 49] [] (by decide) ?_
    intro v hv
    have hvv : fromStrRadix16 8 [48, 49] = some 1 := by decide
    rw [hvv] at hv
    cases hv
    decide
  · refine extract_characterization.2.2.2.2.1 _ [48, 48] [49] [50] [48, 48] [] (by decide)
      (by decide) ?_
    intro flag hf
    have hff : fromStrRadix16 8 [48, 48] = some 0 := by decide
    rw [hff] at hf
    cases hf
    decide
  · exact extract_characterization.2.2.2.2.2 _ [48, 48] [122] [50] [48, 49] [] (by decide)
      (Or.inl (by decide))

/-- The bytes of `"00-0-1-01"`: valid version and sampled flags, trace-id
group parsing to 0 and parent-id group parsing to 1. -/
def partialContextHeader : Bytes := [48, 48, 45, 48, 45, 49, 45, 48, 49]

/-- C3 counterexample: decoding `"00-0-1-01"` yields (trace_id = 0,
parent_id = 1), which is neither the sentinel (0, 0) nor a context with a
non-zero trace id — a partially populated context escapes. -/
theorem extract_partial_context_cex :
    Propagation.extract [("traceparent", partialContextHeader)] = ⟨0, 1⟩ ∧
    ¬(Propagation.extract [("traceparent", partialContextHeader)] = DatadogContext.default ∨
      (Propagation.extract [("traceparent", partialContextHeader)]).trace_id ≠ 0) := by
  refine ⟨by decide, by decide⟩

/-- C3 (amended): the decoded context is never invented: it is either exactly
the sentinel or exactly the pair parsed from the trace-id and parent-id
groups of the header; a parsed pair with trace_id = 0 and parent_id ≠ 0 is
possible, so the result is not always sentinel-or-nonzero-trace-id. -/
theorem extract_sentinel_or_parsed (headers : HeaderMap) :
    Propagation.extract headers = DatadogContext.default ∨
    ∃ header vg tg pg fg rest,
      getHeader headers "traceparent" = some header ∧
      splitDash header = vg :: tg :: pg :: fg :: rest ∧
      fromStrRadix16 128 tg = some (Propagation.extract headers).trace_id ∧
      fromStrRadix16 64 pg = some (Propagation.extract headers).parent_id := by
  rcases hg : getHeader headers "traceparent" with _ | header
  · left
    unfold Propagation.extract
    rw [hg]
  · have hex : Propagation.extract headers = Propagation.extractValue header := by
      unfold Propagation.extract
      rw [hg]
    rcases hsp : splitDash header with _ | ⟨vg, _ | ⟨tg, _ | ⟨pg, _ | ⟨fg, rest⟩⟩⟩⟩
    · left
      rw [hex]
      exact extractValue_default_of_short (by rw [hsp]; simp)
    · left
      rw [hex]
      exact extractValue_default_of_short (by rw [hsp]; simp)
    · left
      rw [hex]
      exact extractValue_default_of_short (by rw [hsp]; simp)
    · left
      rw [hex]
      exact extractValue_default_of_short (by rw [hsp]; simp)
    · by_cases hvis : isVisibleAscii header = true
      case neg =>
        left
        rw [hex]
        exact extractValue_of_not_visible hvis
      case pos =>
      have hev : Propagation.extract headers = Propagation.extractGroups vg tg pg fg := by
        rw [hex, extractValue_of_visible hvis]
        exact extractStr_eq_groups hsp
      rcases hvv : fromStrRadix16 8 vg with _ | v
      · left
        rw [hev]
        exact extractGroups_default_version fun v hv => by rw [hvv] at hv; cases hv
      · by_cases hv0 : v = 0
        · subst hv0
          rcases hff : fromStrRadix16 8 fg with _ | flag
          · left
            rw [hev]
            exact extractGroups_default_flags hvv fun flag hf => by rw [hff] at hf; cases hf
          · by_cases hbit : flag &&& 1 = 1
            · rcases htg : fromStrRadix16 128 tg with _ | t
              · left
                rw [hev]
                exact extractGroups_default_ids (Or.inl htg)
              · rcases hpg : fromStrRadix16 64 pg with _ | p
                · left
                  rw [hev]
                  exact extractGroups_default_ids (Or.inr hpg)
                · right
                  have hres : Propagation.extract headers = ⟨t, p⟩ := by
                    rw [hev]
                    exact extractGroups_eq_of_parses hvv hff hbit htg hpg
                  refine ⟨header, vg, tg, pg, fg, rest, rfl, hsp, ?_, ?_⟩
                  · rw [hres]
                    exact htg
                  · rw [hres]
                    exact hpg
            · left
              rw [hev]
              refine extractGroups_default_flags hvv fun flag2 hf => ?_
              rw [hff] at hf
              cases hf
              exact hbit
        · left
          rw [hev]
          refine extractGroups_default_version fun v2 hv2 => ?_
          rw [hvv] at hv2
          cases hv2
          exact hv0
